import Mathlib

/-!
# Verification of the TRON trade-event ledger (tron_listener3.py)

Shallow embedding of the event-sourcing ledger: parsers, position math
(buy_merge / sell_pnl), the event-application functions apply_tradeopen /
apply_tradeclosed over an explicit store state, and the run_once / tail
processing loops.  Python `Decimal` values are modelled as exact rationals
(ℚ); `Decimal.quantize` with ROUND_HALF_UP / ROUND_HALF_EVEN is modelled
explicitly.  The sha1 event_uid hash and the base58check address decoder
are kept as opaque configuration parameters (their outputs are treated as
opaque strings by all of the ledger logic).
-/

namespace TronLedger

/-- A raw TronGrid event envelope's `result` payload, as the JSON dict the
parsers index into; absent keys are `none` (a Python `KeyError`). -/
structure RawResult where
  tokenAddress : Option String
  entryPrice : Option Int
  exitPrice : Option Int
  amount : Option Int
  tradeId : Option Int
  trader : Option String
  strategy : Option String
  action : Option String
  pnl : Option Int
deriving Repr, DecidableEq

/-- A raw TronGrid event envelope. -/
structure RawEv where
  transaction_id : Option String
  block_number : Option Int
  event_index : Option Int
  event_name : Option String
  result : Option RawResult
deriving Repr, DecidableEq

/-- Runtime configuration (load_env).  `canon` models `tron_to_hex`
(base58check + sha256, opaque here) and `uidf` models `event_uid` (a sha1
content hash, opaque here); both are pure functions of their input, which
is all the ledger logic depends on. -/
structure Cfg where
  price_scale : ℚ
  decimals_default : ℕ
  decimals_map : List (String × ℕ)
  addr_hex : Bool
  canon : String → String
  uidf : RawEv → String

/-- token_decimals: lookup by the address and by its lowercased form,
falling back to the configured default. -/
def token_decimals (cfg : Cfg) (token_address : String) : ℕ :=
  match cfg.decimals_map.lookup token_address with
  | some d => d
  | none =>
    match cfg.decimals_map.lookup token_address.toLower with
    | some d => d
    | none => cfg.decimals_default

/-- Decimal ROUND_HALF_UP to an integer: nearest integer, ties away from
zero. -/
def roundHalfUp (q : ℚ) : ℤ :=
  if 0 ≤ q then ⌊q + 1 / 2⌋ else -⌊-q + 1 / 2⌋

/-- Decimal ROUND_HALF_EVEN (the default context rounding used by
`Decimal.quantize` in to_price / to_amount): nearest integer, ties to
even. -/
def roundHalfEven (q : ℚ) : ℤ :=
  let n := ⌊q⌋
  let f := q - n
  if f < 1 / 2 then n
  else if 1 / 2 < f then n + 1
  else if 2 ∣ n then n else n + 1

/-- quantize to 18 fractional digits with the default (half-even)
rounding, as `x.quantize(Decimal("0.000000000000000001"))`. -/
def quantize18 (x : ℚ) : ℚ :=
  (roundHalfEven (x * 10 ^ 18) : ℚ) / 10 ^ 18

/-- to_price: scaled chain integer to decimal price. -/
def to_price (cfg : Cfg) (raw_int : Int) : ℚ :=
  quantize18 ((raw_int : ℚ) / cfg.price_scale)

/-- to_amount: scaled chain integer to decimal amount using the token's
decimal count. -/
def to_amount (cfg : Cfg) (token_address : String) (raw_int : Int) : ℚ :=
  quantize18 ((raw_int : ℚ) / 10 ^ token_decimals cfg token_address)

/-- quant_amount: quantize an amount to the token's decimal count with
ROUND_HALF_UP. -/
def quant_amount (cfg : Cfg) (token_src : String) (x : ℚ) : ℚ :=
  (roundHalfUp (x * 10 ^ token_decimals cfg token_src) : ℚ)
    / 10 ^ token_decimals cfg token_src

/-- is_zero_amount: does the amount quantize to zero? -/
def is_zero_amount (cfg : Cfg) (token_src : String) (x : ℚ) : Bool :=
  decide (quant_amount cfg token_src x = 0)

/-- Python `a or b` on optional strings: `None` and `""` are falsy. -/
def pyOrStr : Option String → Option String → Option String
  | some s, b => if s = "" then b else some s
  | none, b => b

/-- Parsed TradeOpen event (the dict built by parse_tradeopen). -/
structure OpenEv where
  uid : String
  tx_id : Option String
  trade_id : Int
  trader : String
  token_address : String
  token_src : String
  strategy : Option String
  action : String
  price : ℚ
  amount : ℚ
  block_number : Option Int
deriving Repr, DecidableEq

/-- Parsed TradeClosed event (the dict built by parse_tradeclosed); note
that it carries no amount field. -/
structure ClosedEv where
  uid : String
  tx_id : Option String
  trade_id : Int
  trader : String
  token_address : String
  token_src : String
  price : ℚ
  pnl : Option ℚ
  block_number : Option Int
deriving Repr, DecidableEq

/-- Turn an absent JSON key into a raised KeyError. -/
def req {α : Type} (o : Option α) (key : String) : Except String α :=
  match o with
  | some a => Except.ok a
  | none => Except.error ("KeyError: " ++ key)

/-- Python `str.upper()` (over the character list). -/
def pyUpper (s : String) : String := String.mk (s.data.map Char.toUpper)

/-- `(r.get("action", "BUY") or "BUY").upper()`. -/
def defaultAction (o : Option String) : String :=
  pyUpper (match o with
   | some s => if s = "" then "BUY" else s
   | none => "BUY")

/-- parse_tradeopen: maps a raw envelope to a typed TradeOpen event;
missing required keys raise (KeyError). -/
def parse_tradeopen (cfg : Cfg) (ev : RawEv) : Except String OpenEv := do
  let r ← req ev.result "result"
  let tok ← req r.tokenAddress "tokenAddress"
  let ep ← req r.entryPrice "entryPrice"
  let am ← req r.amount "amount"
  let tid ← req r.tradeId "tradeId"
  let trd ← req r.trader "trader"
  let price := to_price cfg ep
  let amt := to_amount cfg tok am
  let token_db := if cfg.addr_hex then cfg.canon tok else tok
  Except.ok
    { uid := cfg.uidf ev
      tx_id := ev.transaction_id
      trade_id := tid
      trader := trd
      token_address := token_db
      token_src := tok
      strategy := r.strategy
      action := defaultAction r.action
      price := price
      amount := amt
      block_number := ev.block_number }

/-- parse_tradeclosed: maps a raw envelope to a typed TradeClosed event;
missing required keys raise (KeyError).  No amount field is read. -/
def parse_tradeclosed (cfg : Cfg) (ev : RawEv) : Except String ClosedEv := do
  let r ← req ev.result "result"
  let tok ← req r.tokenAddress "tokenAddress"
  let xp ← req r.exitPrice "exitPrice"
  let tid ← req r.tradeId "tradeId"
  let trd ← req r.trader "trader"
  let pn ← req r.pnl "pnl"
  let token_db := if cfg.addr_hex then cfg.canon tok else tok
  Except.ok
    { uid := cfg.uidf ev
      tx_id := ev.transaction_id
      trade_id := tid
      trader := trd
      token_address := token_db
      token_src := tok
      price := to_price cfg xp
      pnl := some ((pn : ℚ) / cfg.price_scale)
      block_number := ev.block_number }

/-- A row of the open_trades table (one active position per token). -/
structure OpenPosition where
  trade_id_onchain : Int
  avg_entry_price : ℚ
  amount : ℚ
  strategy : Option String
  trader : String
  last_tx_id : Option String
deriving Repr, DecidableEq

/-- A row of the trade_history table. -/
structure HistoryRecord where
  event_uid : String
  tx_id : Option String
  trade_id_onchain : Int
  token_address : String
  action : String
  price : ℚ
  amount : ℚ
  strategy : Option String
  avg_entry_price : Option ℚ
  avg_exit_price : Option ℚ
  pnl : Option ℚ
deriving Repr, DecidableEq

/-- The persistence store: open_trades keyed by token_address, plus the
trade_history table. -/
structure DBState where
  open_trades : String → Option OpenPosition
  trade_history : List HistoryRecord

/-- upsert into open_trades with on_conflict = token_address. -/
def upsert_open (st : DBState) (token : String) (row : OpenPosition) : DBState :=
  { st with open_trades := fun t => if t = token then some row else st.open_trades t }

/-- delete from open_trades by token_address. -/
def delete_open (st : DBState) (token : String) : DBState :=
  { st with open_trades := fun t => if t = token then none else st.open_trades t }

/-- insert_history_once: upsert into trade_history with
on_conflict = event_uid, so at most one row per event_uid ever exists. -/
def insert_history_once (st : DBState) (row : HistoryRecord) : DBState :=
  { st with trade_history :=
      if st.trade_history.any (fun r => r.event_uid = row.event_uid) then
        st.trade_history.map (fun r => if r.event_uid = row.event_uid then row else r)
      else
        st.trade_history ++ [row] }

/-- buy_merge: volume-weighted average entry price of a merged BUY. -/
def buy_merge (avg_entry_price amount buy_price buy_amount : ℚ) : ℚ × ℚ :=
  if amount ≤ 0 then (buy_price, buy_amount)
  else
    let new_amt := amount + buy_amount
    let new_avg := (avg_entry_price * amount + buy_price * buy_amount) / new_amt
    (new_avg, new_amt)

/-- sell_pnl: realized PnL of a sell against an average entry price. -/
def sell_pnl (avg_entry_price sell_price sell_amount : ℚ) : ℚ :=
  (sell_price - avg_entry_price) * sell_amount

/-- apply_tradeopen: apply a parsed TradeOpen event to the store. -/
def apply_tradeopen (cfg : Cfg) (st : DBState) (ev : OpenEv) : DBState :=
  let token := ev.token_address
  let op := st.open_trades token
  let hist : HistoryRecord :=
    { event_uid := ev.uid
      tx_id := ev.tx_id
      trade_id_onchain := ev.trade_id
      token_address := token
      action := ev.action
      price := ev.price
      amount := ev.amount
      strategy := ev.strategy
      avg_entry_price := none
      avg_exit_price := none
      pnl := none }
  if ev.action = "BUY" then
    match op with
    | some p =>
      if 0 < p.amount then
        let m := buy_merge p.avg_entry_price p.amount ev.price ev.amount
        let st1 := upsert_open st token
          { trade_id_onchain := p.trade_id_onchain
            avg_entry_price := m.1
            amount := m.2
            strategy := pyOrStr ev.strategy p.strategy
            trader := ev.trader
            last_tx_id := ev.tx_id }
        insert_history_once st1 { hist with avg_entry_price := some m.1 }
      else
        let st1 := upsert_open st token
          { trade_id_onchain := ev.trade_id
            avg_entry_price := ev.price
            amount := ev.amount
            strategy := ev.strategy
            trader := ev.trader
            last_tx_id := ev.tx_id }
        insert_history_once st1 { hist with avg_entry_price := some ev.price }
    | none =>
      let st1 := upsert_open st token
        { trade_id_onchain := ev.trade_id
          avg_entry_price := ev.price
          amount := ev.amount
          strategy := ev.strategy
          trader := ev.trader
          last_tx_id := ev.tx_id }
      insert_history_once st1 { hist with avg_entry_price := some ev.price }
  else if ev.action = "SELL" then
    match op with
    | none => insert_history_once st hist
    | some p =>
      if p.amount ≤ 0 then insert_history_once st hist
      else
        let open_amt := p.amount
        let avg_entry := p.avg_entry_price
        let sell_amt := min ev.amount open_amt
        let realized := sell_pnl avg_entry ev.price sell_amt
        let st1 := insert_history_once st
          { hist with
              avg_entry_price := some avg_entry
              avg_exit_price := some ev.price
              amount := sell_amt
              pnl := some realized }
        let remaining := quant_amount cfg ev.token_src (open_amt - sell_amt)
        if is_zero_amount cfg ev.token_src remaining then
          delete_open st1 token
        else
          upsert_open st1 token
            { trade_id_onchain := p.trade_id_onchain
              avg_entry_price := avg_entry
              amount := remaining
              strategy := pyOrStr ev.strategy p.strategy
              trader := ev.trader
              last_tx_id := ev.tx_id }
  else
    st

/-- apply_tradeclosed: apply a parsed TradeClosed event to the store. -/
def apply_tradeclosed (cfg : Cfg) (st : DBState) (ev : ClosedEv) : DBState :=
  let token := ev.token_address
  let op := st.open_trades token
  let hist : HistoryRecord :=
    { event_uid := ev.uid
      tx_id := ev.tx_id
      trade_id_onchain := ev.trade_id
      token_address := token
      action := "SELL"
      price := ev.price
      amount := 0
      strategy := none
      avg_entry_price := none
      avg_exit_price := some ev.price
      pnl := ev.pnl }
  match op with
  | none => insert_history_once st hist
  | some p =>
    if p.amount ≤ 0 then insert_history_once st hist
    else
      let open_amt := quant_amount cfg ev.token_src p.amount
      let avg_entry := p.avg_entry_price
      let realized := sell_pnl avg_entry ev.price open_amt
      let st1 := insert_history_once st
        { hist with
            amount := open_amt
            strategy := p.strategy
            avg_entry_price := some avg_entry
            pnl := some (ev.pnl.getD realized) }
      delete_open st1 token

/-- A parsed domain event (the tagged union of the two parse results). -/
inductive DomainEvent where
  | openEv (e : OpenEv)
  | closedEv (e : ClosedEv)
deriving Repr, DecidableEq

/-- Apply one parsed domain event. -/
def apply_event (cfg : Cfg) (st : DBState) : DomainEvent → DBState
  | DomainEvent.openEv e => apply_tradeopen cfg st e
  | DomainEvent.closedEv e => apply_tradeclosed cfg st e

/-- Apply a sequence of parsed domain events, oldest first. -/
def apply_events (cfg : Cfg) (st : DBState) (evs : List DomainEvent) : DBState :=
  evs.foldl (apply_event cfg) st

/-- Ordering key of a parsed domain event (block_number; absent = 0),
mirroring the (block_number, event_index) sort in run_once / tail. -/
def eventKey : DomainEvent → Int
  | DomainEvent.openEv e => e.block_number.getD 0
  | DomainEvent.closedEv e => e.block_number.getD 0

/-- The empty store. -/
def emptyDB : DBState := { open_trades := fun _ => none, trade_history := [] }

/-! ## Runner (run_once and tail) -/

/-- The sort key used by both run modes:
`(e.get("block_number", 0), e.get("event_index", 0))`, compared
lexicographically as Python tuples are. -/
def rawKeyLt (a b : RawEv) : Bool :=
  a.block_number.getD 0 < b.block_number.getD 0 ||
    (a.block_number.getD 0 = b.block_number.getD 0 &&
      a.event_index.getD 0 < b.event_index.getD 0)

/-- Stable insertion into a sorted list: a newly arriving event goes
after any event with an equal key. -/
def insertEv (e : RawEv) : List RawEv → List RawEv
  | [] => [e]
  | x :: xs => if rawKeyLt e x then e :: x :: xs else x :: insertEv e xs

/-- The oldest-to-newest stable sort applied to each fetched page. -/
def sortEvents (evs : List RawEv) : List RawEv :=
  evs.foldl (fun acc e => insertEv e acc) []

/-- One event of the processing loop body: dispatch on event_name, parse,
apply.  A parse failure propagates as the raised exception does; unknown
event names are passed over. -/
def process_event (cfg : Cfg) (st : DBState) (ev : RawEv) : Except String DBState :=
  match ev.event_name with
  | some n =>
    if n = "TradeOpen" then
      match parse_tradeopen cfg ev with
      | Except.ok e => Except.ok (apply_tradeopen cfg st e)
      | Except.error msg => Except.error msg
    else if n = "TradeClosed" then
      match parse_tradeclosed cfg ev with
      | Except.ok e => Except.ok (apply_tradeclosed cfg st e)
      | Except.error msg => Except.error msg
    else Except.ok st
  | none => Except.ok st

/-- Does the loop body process this event without raising? -/
def parse_ok (cfg : Cfg) (ev : RawEv) : Bool :=
  match ev.event_name with
  | some n =>
    if n = "TradeOpen" then
      match parse_tradeopen cfg ev with
      | Except.ok _ => true
      | Except.error _ => false
    else if n = "TradeClosed" then
      match parse_tradeclosed cfg ev with
      | Except.ok _ => true
      | Except.error _ => false
    else true
  | none => true

/-- run_once, one page: sort then apply each event in order.  There is no
per-event exception handler, so a raised parse error aborts the whole
run (the remaining events of the stream are not processed). -/
def run_once_page (cfg : Cfg) (st : DBState) (evs : List RawEv) : Except String DBState :=
  (sortEvents evs).foldlM (process_event cfg) st

/-- The body of one tail poll over an already-sorted page: each event's
uid is added to `seen` before processing; an event whose uid was already
seen is passed over; a raised parse error is caught by the per-poll
try/except, which ends the iteration keeping the state reached so far. -/
def tail_go (cfg : Cfg) : List RawEv → DBState × Finset String → DBState × Finset String
  | [], acc => acc
  | ev :: rest, (st, seen) =>
    let uid := cfg.uidf ev
    if uid ∈ seen then tail_go cfg rest (st, seen)
    else
      match process_event cfg st ev with
      | Except.ok st2 => tail_go cfg rest (st2, insert uid seen)
      | Except.error _ => (st, insert uid seen)

/-- One poll iteration of the tail loop: fetch (given here as `evs`),
sort, process with the in-process seen set. -/
def tail_iteration (cfg : Cfg) (evs : List RawEv) (acc : DBState × Finset String) :
    DBState × Finset String :=
  tail_go cfg (sortEvents evs) acc

/-- The state the loop body reaches on one raw event when its parse
succeeds (and the unchanged state when it raises). -/
def apply_raw_ok (cfg : Cfg) (st : DBState) (e : RawEv) : DBState :=
  match process_event cfg st e with
  | Except.ok s => s
  | Except.error _ => st

/-- Amount sanity of a parsed domain event: BUY quantities are positive,
SELL quantities non-negative. -/
def goodEvent : DomainEvent → Prop
  | DomainEvent.openEv e => (e.action = "BUY" → 0 < e.amount) ∧ (e.action = "SELL" → 0 ≤ e.amount)
  | DomainEvent.closedEv _ => True

/-! ## Concrete fixtures -/

/-- A concrete configuration: the default PRICE_SCALE = 10^6 and
TOKEN_DECIMALS_DEFAULT = 6, identity canonicalization, uid = tx id. -/
def cfg0 : Cfg :=
  { price_scale := 1000000
    decimals_default := 6
    decimals_map := []
    addr_hex := true
    canon := fun s => s
    uidf := fun e => e.transaction_id.getD "" }

/-- A parsed BUY of 5 units of tokA at price 10. -/
def evBuy1 : OpenEv :=
  { uid := "u1", tx_id := some "tx1", trade_id := 1, trader := "TA"
    token_address := "tokA", token_src := "tokA", strategy := none
    action := "BUY", price := 10, amount := 5, block_number := some 100 }

/-- The position created by evBuy1 against an empty store. -/
def posBuy1 : OpenPosition :=
  { trade_id_onchain := 1, avg_entry_price := 10, amount := 5
    strategy := none, trader := "TA", last_tx_id := some "tx1" }

/-- A live position in tokA: avg entry 10, amount 5, opened by trade 1. -/
def posA : OpenPosition :=
  { trade_id_onchain := 1, avg_entry_price := 10, amount := 5
    strategy := some "momentum", trader := "T0", last_tx_id := some "tx0" }

/-- A store holding exactly the live position posA. -/
def stA : DBState :=
  { open_trades := fun t => if t = "tokA" then some posA else none
    trade_history := [] }

/-- A parsed SELL of 3 units of tokA at price 16. -/
def evSell3A : OpenEv :=
  { uid := "u3", tx_id := some "tx3", trade_id := 7, trader := "TB"
    token_address := "tokA", token_src := "tokA", strategy := none
    action := "SELL", price := 16, amount := 3, block_number := some 103 }

/-- A parsed BUY of 5 units of tokA at price 20. -/
def evBuy20 : OpenEv :=
  { uid := "u4", tx_id := some "tx4", trade_id := 9, trader := "TC"
    token_address := "tokA", token_src := "tokA", strategy := none
    action := "BUY", price := 20, amount := 5, block_number := some 104 }

/-- A parsed SELL of 3 units of tokB (a token with no live position). -/
def evSellNoPos : OpenEv :=
  { uid := "u5", tx_id := some "tx5", trade_id := 11, trader := "TD"
    token_address := "tokB", token_src := "tokB", strategy := none
    action := "SELL", price := 16, amount := 3, block_number := some 105 }

/-- A parsed TradeClosed for tokB (no live position) reporting pnl 7. -/
def evClosedNoPos : ClosedEv :=
  { uid := "u6", tx_id := some "tx6", trade_id := 12, trader := "TE"
    token_address := "tokB", token_src := "tokB"
    price := 16, pnl := some 7, block_number := some 106 }

/-- A parsed TradeClosed for tokA at exit price 16 reporting pnl 30. -/
def evClosedA : ClosedEv :=
  { uid := "u7", tx_id := some "tx7", trade_id := 13, trader := "TE"
    token_address := "tokA", token_src := "tokA"
    price := 16, pnl := some 30, block_number := some 107 }

/-- A parsed BUY carrying an empty-string strategy. -/
def evBuyES : OpenEv :=
  { uid := "u8", tx_id := some "tx8", trade_id := 14, trader := "TF"
    token_address := "tokA", token_src := "tokA", strategy := some ""
    action := "BUY", price := 20, amount := 5, block_number := some 108 }

/-- A parsed BUY with amount 0 for tokZ. -/
def evBuy0 : OpenEv :=
  { uid := "u9", tx_id := some "tx9", trade_id := 15, trader := "TG"
    token_address := "tokZ", token_src := "tokZ", strategy := none
    action := "BUY", price := 10, amount := 0, block_number := some 109 }

/-- A well-formed raw TradeOpen envelope (block 100). -/
def rawGood1 : RawEv :=
  { transaction_id := some "txg1", block_number := some 100, event_index := some 0
    event_name := some "TradeOpen"
    result := some
      { tokenAddress := some "TA1", entryPrice := some 10000000, exitPrice := none
        amount := some 5000000, tradeId := some 1, trader := some "TR"
        strategy := none, action := some "BUY", pnl := none } }

/-- A malformed raw envelope (its result payload is missing, so parsing
raises a KeyError), sorting between the two well-formed ones. -/
def rawBad : RawEv :=
  { transaction_id := some "txb", block_number := some 101, event_index := some 0
    event_name := some "TradeOpen", result := none }

/-- A second well-formed raw TradeOpen envelope (block 102, token TB2). -/
def rawGood2 : RawEv :=
  { transaction_id := some "txg2", block_number := some 102, event_index := some 0
    event_name := some "TradeOpen"
    result := some
      { tokenAddress := some "TB2", entryPrice := some 20000000, exitPrice := none
        amount := some 5000000, tradeId := some 2, trader := some "TR"
        strategy := none, action := some "BUY", pnl := none } }

/-- The n-th of an unbounded family of pairwise distinct uid strings. -/
def uidStrN (n : ℕ) : String := String.mk (List.replicate n 'a')

/-- A feed of n raw events with pairwise distinct transaction ids (hence
pairwise distinct event uids) that all process without raising. -/
def feedRaw (n : ℕ) : List RawEv :=
  (List.range n).map fun i =>
    { transaction_id := some (uidStrN i), block_number := some 0
      event_index := some (i : Int), event_name := none, result := none }

/-! ## Quantization lemmas -/

theorem floor_int_add_half (k : ℤ) : ⌊(k : ℚ) + 1 / 2⌋ = k := by
  rw [Int.floor_int_add]
  norm_num

theorem roundHalfUp_intCast (k : ℤ) : roundHalfUp (k : ℚ) = k := by
  unfold roundHalfUp
  by_cases h : (0 : ℚ) ≤ (k : ℚ)
  · rw [if_pos h, floor_int_add_half]
  · rw [if_neg h]
    have h2 : -(k : ℚ) = ((-k : ℤ) : ℚ) := by push_cast; ring
    rw [h2, floor_int_add_half]
    omega

theorem quant_amount_idem (cfg : Cfg) (tok : String) (x : ℚ) :
    quant_amount cfg tok (quant_amount cfg tok x) = quant_amount cfg tok x := by
  have h10 : ((10 : ℚ) ^ token_decimals cfg tok) ≠ 0 := by positivity
  unfold quant_amount
  rw [div_mul_cancel₀ _ h10, roundHalfUp_intCast]

theorem quant_amount_zero (cfg : Cfg) (tok : String) : quant_amount cfg tok 0 = 0 := by
  unfold quant_amount
  rw [show (0 : ℚ) * 10 ^ token_decimals cfg tok = ((0 : ℤ) : ℚ) by push_cast; ring,
    roundHalfUp_intCast]
  norm_num

theorem quant_amount_nonneg (cfg : Cfg) (tok : String) (x : ℚ) (hx : 0 ≤ x) :
    0 ≤ quant_amount cfg tok x := by
  unfold quant_amount roundHalfUp
  have hq : (0 : ℚ) ≤ x * 10 ^ token_decimals cfg tok := by positivity
  rw [if_pos hq]
  refine div_nonneg ?_ (by positivity)
  have h : (0 : ℤ) ≤ ⌊x * 10 ^ token_decimals cfg tok + 1 / 2⌋ :=
    Int.le_floor.mpr (by push_cast; linarith)
  exact_mod_cast h

/-! ## Branch lemmas shared by several claims -/

theorem apply_tradeopen_frame (cfg : Cfg) (st : DBState) (e : OpenEv) (t : String)
    (ht : t ≠ e.token_address) :
    (apply_tradeopen cfg st e).open_trades t = st.open_trades t := by
  unfold apply_tradeopen
  by_cases hb : e.action = "BUY"
  · cases hop : st.open_trades e.token_address with
    | none => simp [hb, hop, insert_history_once, upsert_open, ht]
    | some p =>
      by_cases hp : 0 < p.amount
      · simp [hb, hop, hp, insert_history_once, upsert_open, ht]
      · simp [hb, hop, hp, insert_history_once, upsert_open, ht]
  · by_cases hs : e.action = "SELL"
    · cases hop : st.open_trades e.token_address with
      | none => simp [hb, hs, hop, insert_history_once]
      | some p =>
        by_cases hp : p.amount ≤ 0
        · simp [hb, hs, hop, hp, insert_history_once]
        · simp [hb, hs, hop, hp, insert_history_once, delete_open, upsert_open, ht,
            apply_ite (fun s : DBState => s.open_trades t)]
    · simp [hb, hs]

theorem apply_tradeclosed_frame (cfg : Cfg) (st : DBState) (e : ClosedEv) (t : String)
    (ht : t ≠ e.token_address) :
    (apply_tradeclosed cfg st e).open_trades t = st.open_trades t := by
  unfold apply_tradeclosed
  cases hop : st.open_trades e.token_address with
  | none => simp [hop, insert_history_once]
  | some p =>
    by_cases hp : p.amount ≤ 0
    · simp [hop, hp, insert_history_once]
    · simp [hop, hp, insert_history_once, delete_open, ht]

theorem apply_tradeopen_buy_merged (cfg : Cfg) (st : DBState) (e : OpenEv) (p : OpenPosition)
    (hb : e.action = "BUY")
    (hop : st.open_trades e.token_address = some p)
    (hpos : 0 < p.amount) :
    (apply_tradeopen cfg st e).open_trades e.token_address =
      some { trade_id_onchain := p.trade_id_onchain
             avg_entry_price := (buy_merge p.avg_entry_price p.amount e.price e.amount).1
             amount := (buy_merge p.avg_entry_price p.amount e.price e.amount).2
             strategy := pyOrStr e.strategy p.strategy
             trader := e.trader
             last_tx_id := e.tx_id } := by
  unfold apply_tradeopen
  simp [hb, hop, hpos, insert_history_once, upsert_open]

theorem apply_tradeopen_first_buy (cfg : Cfg) (st : DBState) (e : OpenEv)
    (hb : e.action = "BUY")
    (hfresh : st.open_trades e.token_address = none ∨
      ∃ p, st.open_trades e.token_address = some p ∧ p.amount ≤ 0) :
    (apply_tradeopen cfg st e).open_trades e.token_address =
      some { trade_id_onchain := e.trade_id
             avg_entry_price := e.price
             amount := e.amount
             strategy := e.strategy
             trader := e.trader
             last_tx_id := e.tx_id } := by
  unfold apply_tradeopen
  rcases hfresh with hop | ⟨p, hop, hple⟩
  · simp [hb, hop, insert_history_once, upsert_open]
  · simp [hb, hop, not_lt.mpr hple, insert_history_once, upsert_open]

theorem apply_tradeopen_sell_retained (cfg : Cfg) (st : DBState) (e : OpenEv) (p : OpenPosition)
    (hs : e.action = "SELL")
    (hb : e.action ≠ "BUY")
    (hop : st.open_trades e.token_address = some p)
    (hpos : 0 < p.amount)
    (hz : quant_amount cfg e.token_src (p.amount - min e.amount p.amount) ≠ 0) :
    (apply_tradeopen cfg st e).open_trades e.token_address =
      some { trade_id_onchain := p.trade_id_onchain
             avg_entry_price := p.avg_entry_price
             amount := quant_amount cfg e.token_src (p.amount - min e.amount p.amount)
             strategy := pyOrStr e.strategy p.strategy
             trader := e.trader
             last_tx_id := e.tx_id } := by
  unfold apply_tradeopen
  simp [hs, hb, hop, not_le.mpr hpos, is_zero_amount, quant_amount_idem, hz,
    insert_history_once, upsert_open]

theorem apply_tradeopen_sell_deleted (cfg : Cfg) (st : DBState) (e : OpenEv) (p : OpenPosition)
    (hs : e.action = "SELL")
    (hb : e.action ≠ "BUY")
    (hop : st.open_trades e.token_address = some p)
    (hpos : 0 < p.amount)
    (hz : quant_amount cfg e.token_src (p.amount - min e.amount p.amount) = 0) :
    (apply_tradeopen cfg st e).open_trades e.token_address = none := by
  unfold apply_tradeopen
  simp [hs, hb, hop, not_le.mpr hpos, is_zero_amount, quant_amount_idem, quant_amount_zero,
    hz, insert_history_once, delete_open]

theorem apply_tradeopen_other_action (cfg : Cfg) (st : DBState) (e : OpenEv)
    (hb : e.action ≠ "BUY") (hs : e.action ≠ "SELL") :
    apply_tradeopen cfg st e = st := by
  unfold apply_tradeopen
  simp [hb, hs]

theorem apply_tradeclosed_deletes (cfg : Cfg) (st : DBState) (e : ClosedEv) (p : OpenPosition)
    (hop : st.open_trades e.token_address = some p)
    (hpos : 0 < p.amount) :
    (apply_tradeclosed cfg st e).open_trades e.token_address = none := by
  unfold apply_tradeclosed
  simp [hop, not_le.mpr hpos, insert_history_once, delete_open]

/-! ## Claims -/

/-- C1 (code_bug evidence): redelivering the identical BUY event through
apply_tradeopen is absorbed by the history table (still exactly one row
for its event_uid) but is double-applied to open_trades: the open amount
becomes 10 instead of staying at the single-application value 5. -/
theorem c1_redelivery_double_applies :
    ((apply_tradeopen cfg0 emptyDB evBuy1).open_trades "tokA").map OpenPosition.amount
        = some 5 ∧
    ((apply_tradeopen cfg0 (apply_tradeopen cfg0 emptyDB evBuy1) evBuy1).open_trades
        "tokA").map OpenPosition.amount = some 10 ∧
    ((apply_tradeopen cfg0 (apply_tradeopen cfg0 emptyDB evBuy1) evBuy1).trade_history.filter
        (fun r => r.event_uid = evBuy1.uid)).length = 1 ∧
    (5 : ℚ) ≠ 10 := by
  norm_num [apply_tradeopen, cfg0, evBuy1, emptyDB, upsert_open, insert_history_once,
    buy_merge, pyOrStr, List.filter]

/-- C2 counterexample: against an empty store, a SELL of 3 produces a
history row with amount 3 (the event amount, not 0), and a Closed event
reporting pnl 7 produces a history row with pnl 7 (not null). -/
theorem c2_missing_position_rows_counterexample :
    (apply_tradeopen cfg0 emptyDB evSellNoPos).trade_history.map HistoryRecord.amount = [3] ∧
    (apply_tradeopen cfg0 emptyDB evSellNoPos).trade_history.map HistoryRecord.pnl = [none] ∧
    (apply_tradeclosed cfg0 emptyDB evClosedNoPos).trade_history.map HistoryRecord.amount = [0] ∧
    (apply_tradeclosed cfg0 emptyDB evClosedNoPos).trade_history.map HistoryRecord.pnl
        = [some 7] ∧
    (3 : ℚ) ≠ 0 ∧ (some (7 : ℚ)) ≠ none := by
  simp [apply_tradeopen, apply_tradeclosed, cfg0, evSellNoPos, evClosedNoPos, emptyDB,
    insert_history_once]

/-- C2 (amended): a SELL or Closed event applied with no live position
(or a stored amount ≤ 0) never raises and leaves open_trades unchanged;
the SELL path records a history row with amount = ev.amount and
pnl = null, while the Closed path records amount = 0 and pnl = the
event's reported pnl. -/
theorem c2_missing_position_noop (cfg : Cfg) (st : DBState) (ev : OpenEv) (cv : ClosedEv)
    (hact : ev.action = "SELL")
    (hop : ∀ p, st.open_trades ev.token_address = some p → p.amount ≤ 0)
    (hcp : ∀ p, st.open_trades cv.token_address = some p → p.amount ≤ 0) :
    apply_tradeopen cfg st ev = insert_history_once st
      { event_uid := ev.uid, tx_id := ev.tx_id, trade_id_onchain := ev.trade_id
        token_address := ev.token_address, action := ev.action, price := ev.price
        amount := ev.amount, strategy := ev.strategy, avg_entry_price := none
        avg_exit_price := none, pnl := none } ∧
    (apply_tradeopen cfg st ev).open_trades = st.open_trades ∧
    apply_tradeclosed cfg st cv = insert_history_once st
      { event_uid := cv.uid, tx_id := cv.tx_id, trade_id_onchain := cv.trade_id
        token_address := cv.token_address, action := "SELL", price := cv.price
        amount := 0, strategy := none, avg_entry_price := none
        avg_exit_price := some cv.price, pnl := cv.pnl } ∧
    (apply_tradeclosed cfg st cv).open_trades = st.open_trades := by
  have h1 : apply_tradeopen cfg st ev = insert_history_once st
      { event_uid := ev.uid, tx_id := ev.tx_id, trade_id_onchain := ev.trade_id
        token_address := ev.token_address, action := ev.action, price := ev.price
        amount := ev.amount, strategy := ev.strategy, avg_entry_price := none
        avg_exit_price := none, pnl := none } := by
    unfold apply_tradeopen
    cases hq : st.open_trades ev.token_address with
    | none => simp [hact, hq]
    | some p => simp [hact, hq, hop p hq]
  have h2 : apply_tradeclosed cfg st cv = insert_history_once st
      { event_uid := cv.uid, tx_id := cv.tx_id, trade_id_onchain := cv.trade_id
        token_address := cv.token_address, action := "SELL", price := cv.price
        amount := 0, strategy := none, avg_entry_price := none
        avg_exit_price := some cv.price, pnl := cv.pnl } := by
    unfold apply_tradeclosed
    cases hq : st.open_trades cv.token_address with
    | none => simp [hq]
    | some p => simp [hq, hcp p hq]
  exact ⟨h1, by rw [h1]; rfl, h2, by rw [h2]; rfl⟩

/-- C2 witness: the amended statement instantiated on an empty store
with the concrete SELL and Closed fixtures. -/
theorem c2_missing_position_noop_witness :
    (apply_tradeopen cfg0 emptyDB evSellNoPos).open_trades = emptyDB.open_trades ∧
    (apply_tradeclosed cfg0 emptyDB evClosedNoPos).open_trades = emptyDB.open_trades := by
  have h := c2_missing_position_noop cfg0 emptyDB evSellNoPos evClosedNoPos rfl
    (by intro p hp; simp [emptyDB] at hp) (by intro p hp; simp [emptyDB] at hp)
  exact ⟨h.2.1, h.2.2.2⟩

/-- C3: a SELL against a live position sells min(ev.amount, open.amount),
realizes (exit − avg entry) × sold into the history row, and either
deletes the position (remaining quantizes to 0) or retains it with the
avg entry price unchanged and the amount reduced to the quantized
remainder. -/
theorem c3_sell_live_position (cfg : Cfg) (st : DBState) (ev : OpenEv) (p : OpenPosition)
    (hact : ev.action = "SELL")
    (hop : st.open_trades ev.token_address = some p)
    (hpos : 0 < p.amount) :
    (apply_tradeopen cfg st ev).trade_history =
      (insert_history_once st
        { event_uid := ev.uid, tx_id := ev.tx_id, trade_id_onchain := ev.trade_id
          token_address := ev.token_address, action := ev.action, price := ev.price
          amount := min ev.amount p.amount, strategy := ev.strategy
          avg_entry_price := some p.avg_entry_price
          avg_exit_price := some ev.price
          pnl := some ((ev.price - p.avg_entry_price) * min ev.amount p.amount)
        }).trade_history ∧
    (quant_amount cfg ev.token_src (p.amount - min ev.amount p.amount) = 0 →
      (apply_tradeopen cfg st ev).open_trades ev.token_address = none) ∧
    (quant_amount cfg ev.token_src (p.amount - min ev.amount p.amount) ≠ 0 →
      (apply_tradeopen cfg st ev).open_trades ev.token_address =
        some { trade_id_onchain := p.trade_id_onchain
               avg_entry_price := p.avg_entry_price
               amount := quant_amount cfg ev.token_src (p.amount - min ev.amount p.amount)
               strategy := pyOrStr ev.strategy p.strategy
               trader := ev.trader
               last_tx_id := ev.tx_id }) := by
  have hnle : ¬ p.amount ≤ 0 := not_le.mpr hpos
  refine ⟨?_, ?_, ?_⟩
  · unfold apply_tradeopen
    simp [hact, hop, hnle, sell_pnl, apply_ite DBState.trade_history, delete_open,
      upsert_open]
  · intro h
    unfold apply_tradeopen
    simp [hact, hop, hnle, is_zero_amount, quant_amount_idem, quant_amount_zero, h,
      delete_open]
  · intro h
    unfold apply_tradeopen
    simp [hact, hop, hnle, is_zero_amount, quant_amount_idem, quant_amount_zero, h,
      upsert_open]

/-- C3 witness: a SELL of 3 against (avg = 10, amount = 5, exit = 16)
realizes pnl 18 and leaves an open amount of 2 (avg entry unchanged). -/
theorem c3_sell_live_position_witness :
    (apply_tradeopen cfg0 stA evSell3A).open_trades "tokA" =
      some { trade_id_onchain := 1, avg_entry_price := 10, amount := 2
             strategy := some "momentum", trader := "TB", last_tx_id := some "tx3" } ∧
    (apply_tradeopen cfg0 stA evSell3A).trade_history.map HistoryRecord.pnl = [some 18] := by
  have h := c3_sell_live_position cfg0 stA evSell3A posA rfl
    (by simp [stA, evSell3A]) (by norm_num [posA])
  have hne : quant_amount cfg0 evSell3A.token_src
      (posA.amount - min evSell3A.amount posA.amount) ≠ 0 := by
    norm_num [quant_amount, token_decimals, cfg0, roundHalfUp, evSell3A, posA, min_def]
  constructor
  · rw [show ("tokA" : String) = evSell3A.token_address from rfl, h.2.2 hne]
    norm_num [evSell3A, posA, pyOrStr, quant_amount, token_decimals, cfg0, roundHalfUp,
      min_def]
  · rw [h.1]
    norm_num [insert_history_once, stA, evSell3A, posA, min_def]

/-- C4: a BUY merged into a live position adds the amounts and takes the
volume-weighted average entry price; the divide-by-zero guard in
buy_merge falls back to the incoming price (and amount) when the stored
amount is not positive. -/
theorem c4_buy_merge_live_position (cfg : Cfg) (st : DBState) (ev : OpenEv) (p : OpenPosition)
    (hact : ev.action = "BUY")
    (hop : st.open_trades ev.token_address = some p)
    (hpos : 0 < p.amount)
    (hamt : 0 ≤ ev.amount) :
    (apply_tradeopen cfg st ev).open_trades ev.token_address =
      some { trade_id_onchain := p.trade_id_onchain
             avg_entry_price :=
               (p.avg_entry_price * p.amount + ev.price * ev.amount) / (p.amount + ev.amount)
             amount := p.amount + ev.amount
             strategy := pyOrStr ev.strategy p.strategy
             trader := ev.trader
             last_tx_id := ev.tx_id } ∧
    (∀ avg amt bp ba : ℚ, amt ≤ 0 → buy_merge avg amt bp ba = (bp, ba)) := by
  have hnle : ¬ p.amount ≤ 0 := not_le.mpr hpos
  constructor
  · unfold apply_tradeopen buy_merge
    simp [hact, hop, hpos, hnle, upsert_open, insert_history_once]
  · intro avg amt bp ba h
    unfold buy_merge
    simp [h]

theorem apply_tradeopen_keeps_pos (cfg : Cfg) (st : DBState) (e : OpenEv)
    (hinv : ∀ t p, st.open_trades t = some p → 0 < p.amount)
    (hbuy : e.action = "BUY" → 0 < e.amount) :
    ∀ t q, (apply_tradeopen cfg st e).open_trades t = some q → 0 < q.amount := by
  intro t q hq
  by_cases hb : e.action = "BUY"
  · cases hop : st.open_trades e.token_address with
    | none =>
      simp [apply_tradeopen, hb, hop, insert_history_once, upsert_open] at hq
      rcases eq_or_ne t e.token_address with ht | ht
      · rw [if_pos ht] at hq
        cases hq
        exact hbuy hb
      · rw [if_neg ht] at hq
        exact hinv t q hq
    | some p =>
      by_cases hp : 0 < p.amount
      · simp [apply_tradeopen, hb, hop, hp, insert_history_once, upsert_open, buy_merge,
          not_le.mpr hp] at hq
        rcases eq_or_ne t e.token_address with ht | ht
        · rw [if_pos ht] at hq
          cases hq
          exact add_pos hp (hbuy hb)
        · rw [if_neg ht] at hq
          exact hinv t q hq
      · simp [apply_tradeopen, hb, hop, hp, insert_history_once, upsert_open] at hq
        rcases eq_or_ne t e.token_address with ht | ht
        · rw [if_pos ht] at hq
          cases hq
          exact hbuy hb
        · rw [if_neg ht] at hq
          exact hinv t q hq
  · by_cases hs : e.action = "SELL"
    · cases hop : st.open_trades e.token_address with
      | none =>
        simp [apply_tradeopen, hb, hs, hop, insert_history_once] at hq
        exact hinv t q hq
      | some p =>
        by_cases hp : p.amount ≤ 0
        · simp [apply_tradeopen, hb, hs, hop, hp, insert_history_once] at hq
          exact hinv t q hq
        · have hrem_nonneg : 0 ≤ quant_amount cfg e.token_src
              (p.amount - min e.amount p.amount) :=
            quant_amount_nonneg _ _ _ (sub_nonneg.mpr (min_le_right _ _))
          by_cases hz : quant_amount cfg e.token_src (p.amount - min e.amount p.amount) = 0
          · simp [apply_tradeopen, hb, hs, hop, hp, is_zero_amount, quant_amount_idem,
              quant_amount_zero, hz, insert_history_once, delete_open] at hq
            exact hinv t q hq.2
          · simp [apply_tradeopen, hb, hs, hop, hp, is_zero_amount, quant_amount_idem,
              hz, insert_history_once, upsert_open] at hq
            rcases eq_or_ne t e.token_address with ht | ht
            · rw [if_pos ht] at hq
              cases hq
              exact lt_of_le_of_ne hrem_nonneg (Ne.symm hz)
            · rw [if_neg ht] at hq
              exact hinv t q hq
    · simp [apply_tradeopen, hb, hs] at hq
      exact hinv t q hq

theorem apply_tradeclosed_keeps_pos (cfg : Cfg) (st : DBState) (e : ClosedEv)
    (hinv : ∀ t p, st.open_trades t = some p → 0 < p.amount) :
    ∀ t q, (apply_tradeclosed cfg st e).open_trades t = some q → 0 < q.amount := by
  intro t q hq
  cases hop : st.open_trades e.token_address with
  | none =>
    simp [apply_tradeclosed, hop, insert_history_once] at hq
    exact hinv t q hq
  | some p =>
    by_cases hp : p.amount ≤ 0
    · simp [apply_tradeclosed, hop, hp, insert_history_once] at hq
      exact hinv t q hq
    · simp [apply_tradeclosed, hop, hp, insert_history_once, delete_open] at hq
      exact hinv t q hq.2

theorem apply_event_keeps_pos (cfg : Cfg) (st : DBState) (ev : DomainEvent)
    (hinv : ∀ t p, st.open_trades t = some p → 0 < p.amount)
    (hg : goodEvent ev) :
    ∀ t q, (apply_event cfg st ev).open_trades t = some q → 0 < q.amount := by
  cases ev with
  | openEv e => exact apply_tradeopen_keeps_pos cfg st e hinv hg.1
  | closedEv e => exact apply_tradeclosed_keeps_pos cfg st e hinv

/-- C5 counterexample: the claim fails as stated for non-negative
amounts: a single sorted BUY of amount 0 (a non-negative amount) against
the empty store creates an open_trades row whose amount is 0, so a row
exists whose amount is not positive. -/
theorem c5_zero_buy_counterexample :
    (0 : ℚ) ≤ evBuy0.amount ∧
    List.Chain' (fun a b => eventKey a ≤ eventKey b) [DomainEvent.openEv evBuy0] ∧
    (apply_events cfg0 emptyDB [DomainEvent.openEv evBuy0]).open_trades "tokZ" =
      some { trade_id_onchain := 15, avg_entry_price := 10, amount := 0
             strategy := none, trader := "TG", last_tx_id := some "tx9" } ∧
    ¬ (0 : ℚ) < 0 := by
  refine ⟨by norm_num [evBuy0], by simp, ?_, by norm_num⟩
  simp [apply_events, apply_event, apply_tradeopen, evBuy0, emptyDB, insert_history_once,
    upsert_open]

/-- C5 (amended): after applying any (block_number)-sorted sequence of
domain events whose BUY amounts are positive and whose SELL amounts are
non-negative to a store satisfying the open-row invariant, every
existing open_trades row still has a strictly positive amount — hence no
open amount is ever negative and a row exists only while its amount is
positive. -/
theorem c5_open_amount_invariant (cfg : Cfg) (evs : List DomainEvent) (st : DBState)
    (hinv : ∀ t p, st.open_trades t = some p → 0 < p.amount)
    (hgood : ∀ e ∈ evs, goodEvent e)
    (hsorted : List.Chain' (fun a b => eventKey a ≤ eventKey b) evs) :
    ∀ t p, (apply_events cfg st evs).open_trades t = some p → 0 < p.amount := by
  induction evs generalizing st with
  | nil => exact hinv
  | cons e rest ih =>
    have hstep := apply_event_keeps_pos cfg st e hinv (hgood e (by simp))
    exact ih (apply_event cfg st e) hstep
      (fun x hx => hgood x (by simp [hx])) hsorted.tail

/-- C5 witness: after the sorted two-event sequence BUY 5 then SELL 3 on
tokA from the empty store, the surviving tokA row has a positive amount,
by the amended invariant. -/
theorem c5_open_amount_invariant_witness :
    ∃ p, (apply_events cfg0 emptyDB
        [DomainEvent.openEv evBuy1, DomainEvent.openEv evSell3A]).open_trades "tokA" =
      some p ∧ 0 < p.amount := by
  have h1 : (apply_tradeopen cfg0 emptyDB evBuy1).open_trades evSell3A.token_address =
      some posBuy1 :=
    apply_tradeopen_first_buy cfg0 emptyDB evBuy1 rfl (Or.inl (by simp [emptyDB]))
  have hz : quant_amount cfg0 evSell3A.token_src
      (posBuy1.amount - min evSell3A.amount posBuy1.amount) ≠ 0 := by
    norm_num [quant_amount, token_decimals, cfg0, roundHalfUp, evSell3A, posBuy1, min_def]
  have h2 := apply_tradeopen_sell_retained cfg0 (apply_tradeopen cfg0 emptyDB evBuy1)
    evSell3A posBuy1 rfl (by simp [evSell3A]) h1 (by norm_num [posBuy1]) hz
  refine ⟨{ trade_id_onchain := posBuy1.trade_id_onchain
            avg_entry_price := posBuy1.avg_entry_price
            amount := quant_amount cfg0 evSell3A.token_src
              (posBuy1.amount - min evSell3A.amount posBuy1.amount)
            strategy := pyOrStr evSell3A.strategy posBuy1.strategy
            trader := evSell3A.trader
            last_tx_id := evSell3A.tx_id }, ?_, ?_⟩
  · show (apply_tradeopen cfg0 (apply_tradeopen cfg0 emptyDB evBuy1)
      evSell3A).open_trades "tokA" = _
    exact h2
  · refine c5_open_amount_invariant cfg0
      [DomainEvent.openEv evBuy1, DomainEvent.openEv evSell3A] emptyDB
      (fun t p hp => by simp [emptyDB] at hp)
      (fun e he => by
        simp at he
        rcases he with he | he <;> subst he <;>
          exact ⟨fun _ => by norm_num [evBuy1, evSell3A],
            fun _ => by norm_num [evBuy1, evSell3A]⟩)
      (by simp [eventKey, evBuy1, evSell3A]) "tokA" _ ?_
    show (apply_tradeopen cfg0 (apply_tradeopen cfg0 emptyDB evBuy1)
      evSell3A).open_trades "tokA" = _
    exact h2

/-- C6: a live position's trade_id_onchain is preserved by every event
that leaves the position alive (merge BUYs and partial SELLs included),
and whenever an event turns a token with no live position into a live
one, the stored trade_id_onchain is that opening event's trade_id. -/
theorem c6_trade_id_preserved (cfg : Cfg) (st : DBState) (ev : DomainEvent) (t : String) :
    (∀ p q, st.open_trades t = some p → 0 < p.amount →
      (apply_event cfg st ev).open_trades t = some q →
      q.trade_id_onchain = p.trade_id_onchain) ∧
    (∀ e q, ev = DomainEvent.openEv e → e.action = "BUY" → e.token_address = t →
      (st.open_trades t = none ∨ ∃ p, st.open_trades t = some p ∧ p.amount ≤ 0) →
      (apply_event cfg st ev).open_trades t = some q →
      q.trade_id_onchain = e.trade_id) := by
  constructor
  · intro p q hp hpos hq
    cases ev with
    | openEv e =>
      simp only [apply_event] at hq
      rcases eq_or_ne t e.token_address with heq | hne
      · subst heq
        by_cases hb : e.action = "BUY"
        · rw [apply_tradeopen_buy_merged cfg st e p hb hp hpos] at hq
          cases hq
          rfl
        · by_cases hs : e.action = "SELL"
          · by_cases hz : quant_amount cfg e.token_src (p.amount - min e.amount p.amount) = 0
            · rw [apply_tradeopen_sell_deleted cfg st e p hs hb hp hpos hz] at hq
              cases hq
            · rw [apply_tradeopen_sell_retained cfg st e p hs hb hp hpos hz] at hq
              cases hq
              rfl
          · rw [apply_tradeopen_other_action cfg st e hb hs, hp] at hq
            cases hq
            rfl
      · rw [apply_tradeopen_frame cfg st e t hne, hp] at hq
        cases hq
        rfl
    | closedEv e =>
      simp only [apply_event] at hq
      rcases eq_or_ne t e.token_address with heq | hne
      · subst heq
        rw [apply_tradeclosed_deletes cfg st e p hp hpos] at hq
        cases hq
      · rw [apply_tradeclosed_frame cfg st e t hne, hp] at hq
        cases hq
        rfl
  · intro e q hev hb htok hfresh hq
    subst hev
    subst htok
    simp only [apply_event] at hq
    rw [apply_tradeopen_first_buy cfg st e hb hfresh] at hq
    cases hq
    rfl

/-- C6 witness: merging a BUY into the live tokA position keeps its
opening trade_id 1, and the first BUY on an empty store records its own
trade_id. -/
theorem c6_trade_id_preserved_witness :
    ((apply_event cfg0 stA (DomainEvent.openEv evBuy20)).open_trades "tokA").map
        OpenPosition.trade_id_onchain = some 1 ∧
    ((apply_event cfg0 emptyDB (DomainEvent.openEv evBuy1)).open_trades "tokA").map
        OpenPosition.trade_id_onchain = some 1 := by
  have hm : (apply_event cfg0 stA (DomainEvent.openEv evBuy20)).open_trades "tokA" =
      some { trade_id_onchain := 1, avg_entry_price := 15, amount := 10
             strategy := some "momentum", trader := "TC", last_tx_id := some "tx4" } := by
    norm_num [apply_event, apply_tradeopen, stA, posA, evBuy20, buy_merge, pyOrStr,
      upsert_open, insert_history_once]
  have hf : (apply_event cfg0 emptyDB (DomainEvent.openEv evBuy1)).open_trades "tokA" =
      some { trade_id_onchain := 1, avg_entry_price := 10, amount := 5
             strategy := none, trader := "TA", last_tx_id := some "tx1" } := by
    simp [apply_event, apply_tradeopen, emptyDB, evBuy1, upsert_open, insert_history_once]
  constructor
  · have h := (c6_trade_id_preserved cfg0 stA (DomainEvent.openEv evBuy20) "tokA").1
      posA _ (by simp [stA]) (by norm_num [posA]) hm
    rw [hm]
    simp [h, posA]
  · have h := (c6_trade_id_preserved cfg0 emptyDB (DomainEvent.openEv evBuy1) "tokA").2
      evBuy1 _ rfl rfl rfl (Or.inl (by simp [emptyDB])) hf
    rw [hf]
    simp [h, evBuy1]

/-- C9: a TradeClosed event against a live position always closes it in
full: the open row is deleted and the history row records the whole
quantized open amount, with the event's reported pnl preferred over the
locally realized (exit − avg entry) × full amount. -/
theorem c9_closed_full_close (cfg : Cfg) (st : DBState) (ev : ClosedEv) (p : OpenPosition)
    (hop : st.open_trades ev.token_address = some p)
    (hpos : 0 < p.amount) :
    (apply_tradeclosed cfg st ev).open_trades ev.token_address = none ∧
    (apply_tradeclosed cfg st ev).trade_history =
      (insert_history_once st
        { event_uid := ev.uid, tx_id := ev.tx_id, trade_id_onchain := ev.trade_id
          token_address := ev.token_address, action := "SELL", price := ev.price
          amount := quant_amount cfg ev.token_src p.amount
          strategy := p.strategy
          avg_entry_price := some p.avg_entry_price
          avg_exit_price := some ev.price
          pnl := some (ev.pnl.getD ((ev.price - p.avg_entry_price) *
            quant_amount cfg ev.token_src p.amount)) }).trade_history := by
  have hnle : ¬ p.amount ≤ 0 := not_le.mpr hpos
  constructor
  · exact apply_tradeclosed_deletes cfg st ev p hop hpos
  · unfold apply_tradeclosed
    simp [hop, hnle, sell_pnl, insert_history_once, delete_open]

/-- C9 witness: closing the live tokA position (avg 10, amount 5) at
exit 16 with reported pnl 30 deletes the row and records amount 5 and
pnl 30. -/
theorem c9_closed_full_close_witness :
    (apply_tradeclosed cfg0 stA evClosedA).open_trades "tokA" = none ∧
    (apply_tradeclosed cfg0 stA evClosedA).trade_history.map HistoryRecord.amount = [5] ∧
    (apply_tradeclosed cfg0 stA evClosedA).trade_history.map HistoryRecord.pnl
      = [some 30] := by
  have h := c9_closed_full_close cfg0 stA evClosedA posA (by simp [stA, evClosedA])
    (by norm_num [posA])
  refine ⟨by rw [show ("tokA" : String) = evClosedA.token_address from rfl]; exact h.1,
    ?_, ?_⟩
  · rw [h.2]
    norm_num [insert_history_once, stA, evClosedA, posA, quant_amount, token_decimals,
      cfg0, roundHalfUp]
  · rw [h.2]
    norm_num [insert_history_once, stA, evClosedA, posA, quant_amount, token_decimals,
      cfg0, roundHalfUp]

/-- C10 counterexample: a merge BUY carrying the (non-null) strategy ""
does not replace the stored strategy: Python truthiness treats the empty
string as absent, so the prior strategy "momentum" is kept. -/
theorem c10_empty_strategy_counterexample :
    evBuyES.strategy = some "" ∧
    ((apply_tradeopen cfg0 stA evBuyES).open_trades "tokA").map OpenPosition.strategy =
      some (some "momentum") ∧
    (some (some "momentum") : Option (Option String)) ≠ some (some "") := by
  refine ⟨rfl, ?_, by simp⟩
  norm_num [apply_tradeopen, stA, posA, evBuyES, cfg0, buy_merge, pyOrStr, upsert_open,
    insert_history_once]

/-- C10 (amended): every merge BUY and partial SELL overwrites the
position's trader and last_tx_id with the incoming event's, keeps
trade_id_onchain (and, for partial SELLs, avg_entry_price), and replaces
strategy with the event's strategy exactly when that strategy is present
and non-empty, keeping the prior strategy when the event's is absent or
the empty string. -/
theorem c10_frame_effects (cfg : Cfg) (st : DBState) (ev : OpenEv) (p : OpenPosition)
    (hop : st.open_trades ev.token_address = some p)
    (hpos : 0 < p.amount) :
    (ev.action = "BUY" →
      ∃ q, (apply_tradeopen cfg st ev).open_trades ev.token_address = some q ∧
        q.trader = ev.trader ∧ q.last_tx_id = ev.tx_id ∧
        q.trade_id_onchain = p.trade_id_onchain ∧
        (∀ s, ev.strategy = some s → s ≠ "" → q.strategy = some s) ∧
        ((ev.strategy = none ∨ ev.strategy = some "") → q.strategy = p.strategy)) ∧
    (ev.action = "SELL" →
      quant_amount cfg ev.token_src (p.amount - min ev.amount p.amount) ≠ 0 →
      ∃ q, (apply_tradeopen cfg st ev).open_trades ev.token_address = some q ∧
        q.trader = ev.trader ∧ q.last_tx_id = ev.tx_id ∧
        q.trade_id_onchain = p.trade_id_onchain ∧
        q.avg_entry_price = p.avg_entry_price ∧
        (∀ s, ev.strategy = some s → s ≠ "" → q.strategy = some s) ∧
        ((ev.strategy = none ∨ ev.strategy = some "") → q.strategy = p.strategy)) := by
  constructor
  · intro hb
    refine ⟨_, apply_tradeopen_buy_merged cfg st ev p hb hop hpos, rfl, rfl, rfl, ?_, ?_⟩
    · intro s hs hne
      simp [pyOrStr, hs, hne]
    · intro h
      rcases h with h | h <;> simp [pyOrStr, h]
  · intro hs hz
    have hb : ev.action ≠ "BUY" := by rw [hs]; simp
    refine ⟨_, apply_tradeopen_sell_retained cfg st ev p hs hb hop hpos hz, rfl, rfl, rfl,
      rfl, ?_, ?_⟩
    · intro s hss hne
      simp [pyOrStr, hss, hne]
    · intro h
      rcases h with h | h <;> simp [pyOrStr, h]

/-- C10 witness: the amended frame statement instantiated on a merge BUY
(event strategy absent) into the live tokA position. -/
theorem c10_frame_effects_witness :
    ∃ q, (apply_tradeopen cfg0 stA evBuy20).open_trades evBuy20.token_address = some q ∧
      q.trader = "TC" ∧ q.last_tx_id = some "tx4" ∧ q.trade_id_onchain = 1 ∧
      q.strategy = some "momentum" := by
  obtain ⟨q, hq, htr, htx, hid, _, hstrat⟩ :=
    (c10_frame_effects cfg0 stA evBuy20 posA (by simp [stA, evBuy20])
      (by norm_num [posA])).1 rfl
  refine ⟨q, hq, ?_, ?_, ?_, ?_⟩
  · rw [htr]; rfl
  · rw [htx]; rfl
  · rw [hid]; rfl
  · rw [hstrat (Or.inl rfl)]; rfl

/-! ## Runner lemmas -/

theorem process_event_error_of_parse_false (cfg : Cfg) (st : DBState) (e : RawEv)
    (h : parse_ok cfg e = false) : ∃ msg, process_event cfg st e = Except.error msg := by
  unfold parse_ok at h
  unfold process_event
  cases hn : e.event_name with
  | none => rw [hn] at h; simp at h
  | some n =>
    rw [hn] at h
    by_cases h1 : n = "TradeOpen"
    · subst h1
      cases hp : parse_tradeopen cfg e with
      | ok v => simp [hp] at h
      | error m => exact ⟨m, by simp [hn, hp]⟩
    · by_cases h2 : n = "TradeClosed"
      · subst h2
        cases hp : parse_tradeclosed cfg e with
        | ok v => simp [h1, hp] at h
        | error m => exact ⟨m, by simp [hn, h1, hp]⟩
      · simp [h1, h2] at h

theorem process_event_ok_of_parse_true (cfg : Cfg) (st : DBState) (e : RawEv)
    (h : parse_ok cfg e = true) : ∃ s, process_event cfg st e = Except.ok s := by
  unfold parse_ok at h
  unfold process_event
  cases hn : e.event_name with
  | none => exact ⟨st, by simp [hn]⟩
  | some n =>
    rw [hn] at h
    by_cases h1 : n = "TradeOpen"
    · subst h1
      cases hp : parse_tradeopen cfg e with
      | ok v => exact ⟨apply_tradeopen cfg st v, by simp [hn, hp]⟩
      | error m => simp [hp] at h
    · by_cases h2 : n = "TradeClosed"
      · subst h2
        cases hp : parse_tradeclosed cfg e with
        | ok v => exact ⟨apply_tradeclosed cfg st v, by simp [hn, h1, hp]⟩
        | error m => simp [h1, hp] at h
      · exact ⟨st, by simp [hn, h1, h2]⟩

theorem process_event_ok_eq (cfg : Cfg) (st : DBState) (e : RawEv)
    (h : parse_ok cfg e = true) :
    process_event cfg st e = Except.ok (apply_raw_ok cfg st e) := by
  obtain ⟨s, hs⟩ := process_event_ok_of_parse_true cfg st e h
  rw [hs]
  simp [apply_raw_ok, hs]

theorem run_once_fold_fatal (cfg : Cfg) (bad : RawEv) (post : List RawEv)
    (hbad : parse_ok cfg bad = false) :
    ∀ (pre : List RawEv) (st : DBState), (∀ e ∈ pre, parse_ok cfg e = true) →
    ∀ s, (pre ++ bad :: post).foldlM (process_event cfg) st ≠ Except.ok s := by
  intro pre
  induction pre with
  | nil =>
    intro st _ s h
    obtain ⟨m, hm⟩ := process_event_error_of_parse_false cfg st bad hbad
    rw [List.nil_append, List.foldlM_cons, hm] at h
    exact absurd h (by simp [Bind.bind, Except.bind])
  | cons e pre ih =>
    intro st hpre s h
    rw [List.cons_append, List.foldlM_cons,
      process_event_ok_eq cfg st e (hpre e (by simp))] at h
    exact ih (apply_raw_ok cfg st e) (fun x hx => hpre x (by simp [hx])) s h

theorem union_insert_absorb {α : Type} [DecidableEq α] (a : α) (s t : Finset α)
    (h : a ∈ s) : s ∪ insert a t = s ∪ t := by
  rw [Finset.union_insert, Finset.insert_eq_self.mpr (Finset.mem_union_left _ h)]

theorem tail_go_aborts (cfg : Cfg) (bad : RawEv) (post : List RawEv)
    (hbad : parse_ok cfg bad = false) :
    ∀ (pre : List RawEv) (st : DBState) (seen : Finset String),
    (∀ e ∈ pre, parse_ok cfg e = true) →
    (∀ e ∈ pre ++ [bad], cfg.uidf e ∉ seen) →
    ((pre ++ [bad]).map cfg.uidf).Nodup →
    tail_go cfg (pre ++ bad :: post) (st, seen) =
      (pre.foldl (apply_raw_ok cfg) st, seen ∪ ((pre ++ [bad]).map cfg.uidf).toFinset) := by
  intro pre
  induction pre with
  | nil =>
    intro st seen _ hfresh _
    obtain ⟨m, hm⟩ := process_event_error_of_parse_false cfg st bad hbad
    have hb : cfg.uidf bad ∉ seen := hfresh bad (by simp)
    simp only [List.nil_append, tail_go, List.map_cons, List.map_nil, List.foldl_nil,
      List.toFinset_cons, List.toFinset_nil, insert_emptyc_eq]
    rw [if_neg hb, hm]
    show (st, insert (cfg.uidf bad) seen) = _
    refine Prod.ext rfl ?_
    show insert (cfg.uidf bad) seen = seen ∪ {cfg.uidf bad}
    rw [show ({cfg.uidf bad} : Finset String) = insert (cfg.uidf bad) ∅ from rfl,
      Finset.union_insert, Finset.union_empty]
  | cons e pre ih =>
    intro st seen hpre hfresh hnodup
    have he : cfg.uidf e ∉ seen := hfresh e (by simp)
    have hok := process_event_ok_eq cfg st e (hpre e (by simp))
    have hmap : ((e :: pre ++ [bad]).map cfg.uidf) =
        cfg.uidf e :: (pre ++ [bad]).map cfg.uidf := by simp
    have hheadfresh : cfg.uidf e ∉ ((pre ++ [bad]).map cfg.uidf) := by
      rw [hmap] at hnodup
      exact (List.nodup_cons.mp hnodup).1
    have htail : ((pre ++ [bad]).map cfg.uidf).Nodup := by
      rw [hmap] at hnodup
      exact (List.nodup_cons.mp hnodup).2
    simp only [List.cons_append, tail_go]
    rw [if_neg he, hok]
    show tail_go cfg (pre ++ bad :: post) (apply_raw_ok cfg st e, insert (cfg.uidf e) seen)
      = _
    rw [ih (apply_raw_ok cfg st e) (insert (cfg.uidf e) seen)
      (fun x hx => hpre x (by simp [hx]))
      (fun x hx => by
        simp only [Finset.mem_insert, not_or]
        refine ⟨fun hcx => hheadfresh ?_, hfresh x (by simp [hx])⟩
        rw [← hcx]
        exact List.mem_map_of_mem cfg.uidf hx)
      htail]
    refine Prod.ext (by simp) ?_
    show insert (cfg.uidf e) seen ∪ ((pre ++ [bad]).map cfg.uidf).toFinset =
      seen ∪ ((e :: pre ++ [bad]).map cfg.uidf).toFinset
    rw [hmap, List.toFinset_cons, Finset.insert_union, Finset.union_insert]

theorem tail_go_seen_all_ok (cfg : Cfg) :
    ∀ (evs : List RawEv) (st : DBState) (seen : Finset String),
    (∀ e ∈ evs, parse_ok cfg e = true) →
    (tail_go cfg evs (st, seen)).2 = seen ∪ (evs.map cfg.uidf).toFinset := by
  intro evs
  induction evs with
  | nil => intro st seen _; simp [tail_go]
  | cons e rest ih =>
    intro st seen h
    by_cases he : cfg.uidf e ∈ seen
    · simp only [tail_go]
      rw [if_pos he, ih st seen (fun x hx => h x (by simp [hx])),
        List.map_cons, List.toFinset_cons,
        union_insert_absorb (cfg.uidf e) seen ((rest.map cfg.uidf).toFinset) he]
    · have hok := process_event_ok_eq cfg st e (h e (by simp))
      simp only [tail_go]
      rw [if_neg he, hok]
      show (tail_go cfg rest (apply_raw_ok cfg st e, insert (cfg.uidf e) seen)).2 = _
      rw [ih (apply_raw_ok cfg st e) (insert (cfg.uidf e) seen)
        (fun x hx => h x (by simp [hx])),
        List.map_cons, List.toFinset_cons, Finset.insert_union, Finset.union_insert]

theorem insertEv_perm (e : RawEv) (l : List RawEv) : (insertEv e l).Perm (e :: l) := by
  induction l with
  | nil => exact List.Perm.refl _
  | cons x xs ih =>
    unfold insertEv
    by_cases h : rawKeyLt e x
    · rw [if_pos h]
    · rw [if_neg h]
      exact (ih.cons x).trans (List.Perm.swap e x xs)

theorem sortEvents_perm (l : List RawEv) : (sortEvents l).Perm l := by
  suffices h : ∀ (l acc : List RawEv),
      (l.foldl (fun acc e => insertEv e acc) acc).Perm (acc ++ l) by
    simpa using h l []
  intro l
  induction l with
  | nil => intro acc; simp
  | cons e rest ih =>
    intro acc
    simp only [List.foldl_cons]
    refine ((ih (insertEv e acc)).trans ?_)
    refine ((insertEv_perm e acc).append_right rest).trans ?_
    exact List.perm_middle.symm

theorem uidStrN_injective : Function.Injective uidStrN := by
  intro a b h
  have h2 := congrArg (fun s : String => s.data.length) h
  simpa [uidStrN] using h2

theorem tail_seen_card (n : ℕ) :
    ((tail_iteration cfg0 (feedRaw n) (emptyDB, ∅)).2).card = n := by
  unfold tail_iteration
  rw [tail_go_seen_all_ok cfg0 (sortEvents (feedRaw n)) emptyDB ∅ ?hok]
  case hok =>
    intro e he
    have hmem : e ∈ feedRaw n := (sortEvents_perm (feedRaw n)).mem_iff.mp he
    simp only [feedRaw, List.mem_map, List.mem_range] at hmem
    obtain ⟨i, _, rfl⟩ := hmem
    rfl
  rw [Finset.empty_union,
    List.toFinset_eq_of_perm _ _ ((sortEvents_perm (feedRaw n)).map cfg0.uidf)]
  have hmap : (feedRaw n).map cfg0.uidf = (List.range n).map uidStrN := by
    simp [feedRaw, cfg0, List.map_map, Function.comp]
  rw [hmap, List.toFinset_card_of_nodup ((List.nodup_range n).map uidStrN_injective)]
  simp

/-- C7 counterexample: with a malformed event (missing result payload)
between two well-formed ones, backfill-mode page processing raises the
KeyError and never produces a state (processing is fatal, the rest of
the stream is not processed), and the tail iteration leaves the
well-formed event sorted after the malformed one unapplied (its token
has no open row) even though the earlier event was applied. -/
theorem c7_fatal_counterexample :
    parse_ok cfg0 rawGood2 = true ∧
    run_once_page cfg0 emptyDB [rawGood1, rawBad, rawGood2] =
      Except.error "KeyError: result" ∧
    (tail_iteration cfg0 [rawGood1, rawBad, rawGood2] (emptyDB, ∅)).1.open_trades "TB2" =
      none ∧
    ((tail_iteration cfg0 [rawGood1, rawBad, rawGood2]
      (emptyDB, ∅)).1.open_trades "TA1").isSome = true :=
  ⟨rfl, rfl, rfl, rfl⟩

/-- C7 (amended): a malformed event is fatal to backfill-mode page
processing (no final state is produced, so the events after it are
never applied), while in tail mode the per-poll exception handler
contains it: the loop survives, the well-formed events sorted before it
are applied, the malformed event's uid is marked seen, and the events
after it are left for a later poll. -/
theorem c7_malformed_event_isolation (cfg : Cfg) (st : DBState) (seen : Finset String)
    (evs pre post : List RawEv) (bad : RawEv)
    (hsort : sortEvents evs = pre ++ bad :: post)
    (hpre : ∀ e ∈ pre, parse_ok cfg e = true)
    (hbad : parse_ok cfg bad = false)
    (hfresh : ∀ e ∈ pre ++ [bad], cfg.uidf e ∉ seen)
    (hnodup : ((pre ++ [bad]).map cfg.uidf).Nodup) :
    (∀ s, run_once_page cfg st evs ≠ Except.ok s) ∧
    tail_iteration cfg evs (st, seen) =
      (pre.foldl (apply_raw_ok cfg) st,
       seen ∪ ((pre ++ [bad]).map cfg.uidf).toFinset) := by
  constructor
  · intro s
    unfold run_once_page
    rw [hsort]
    exact run_once_fold_fatal cfg bad post hbad pre st hpre s
  · unfold tail_iteration
    rw [hsort]
    exact tail_go_aborts cfg bad post hbad pre st seen hpre hfresh hnodup

/-- C7 witness: the amended statement instantiated on the concrete
three-event page good-bad-good from the empty store. -/
theorem c7_malformed_event_isolation_witness :
    (∀ s, run_once_page cfg0 emptyDB [rawGood1, rawBad, rawGood2] ≠ Except.ok s) ∧
    tail_iteration cfg0 [rawGood1, rawBad, rawGood2] (emptyDB, ∅) =
      ([rawGood1].foldl (apply_raw_ok cfg0) emptyDB,
       ∅ ∪ (([rawGood1] ++ [rawBad]).map cfg0.uidf).toFinset) := by
  refine c7_malformed_event_isolation cfg0 emptyDB ∅ [rawGood1, rawBad, rawGood2]
    [rawGood1] [rawGood2] rawBad rfl ?_ rfl ?_ ?_
  · intro e he
    rw [List.mem_singleton] at he
    subst he
    rfl
  · intro e _
    simp
  · simp [rawGood1, rawBad, cfg0]

/-- C8 counterexample: there is no fixed bound B on the size of the tail
loop's seen-uid set over all possible feeds: a feed of B + 1 events
with pairwise distinct uids drives the set's size to B + 1 in a single
poll iteration. -/
theorem c8_bounded_counterexample :
    ¬ ∃ B : ℕ, ∀ evs : List RawEv,
      ((tail_iteration cfg0 evs (emptyDB, ∅)).2).card ≤ B := by
  rintro ⟨B, hB⟩
  have h := hB (feedRaw (B + 1))
  rw [tail_seen_card] at h
  omega

/-- C8 (amended): the tail loop's in-process seen-uid set is unbounded:
it accumulates every distinct event uid it processes and is never
pruned, so after one poll over a feed of n events with pairwise
distinct uids its size is exactly n. -/
theorem c8_seen_set_growth :
    ∀ n : ℕ, ((tail_iteration cfg0 (feedRaw n) (emptyDB, ∅)).2).card = n :=
  tail_seen_card

/-- C8 witness: one poll over a three-event feed leaves three uids in
the seen set. -/
theorem c8_seen_set_growth_witness :
    ((tail_iteration cfg0 (feedRaw 3) (emptyDB, ∅)).2).card = 3 :=
  c8_seen_set_growth 3

/-- C4 witness: merging (avg = 10, amount = 5) with a BUY (price = 20,
amount = 5) yields avg = 15, amount = 10. -/
theorem c4_buy_merge_live_position_witness :
    (apply_tradeopen cfg0 stA evBuy20).open_trades "tokA" =
      some { trade_id_onchain := 1, avg_entry_price := 15, amount := 10
             strategy := some "momentum", trader := "TC", last_tx_id := some "tx4" } := by
  have h := (c4_buy_merge_live_position cfg0 stA evBuy20 posA rfl
    (by simp [stA, evBuy20]) (by norm_num [posA]) (by norm_num [evBuy20])).1
  rw [show ("tokA" : String) = evBuy20.token_address from rfl, h]
  norm_num [evBuy20, posA, pyOrStr]

end TronLedger
